import Mathlib

/-!
Verification of the pipeline execution engine (tasks.py, executor.py, main.py).

The embedding models Python values exchanged between nodes as a `Value`
inductive (JSON-like values plus a bytes variant, which `_coerce_prev`
distinguishes).  Dicts are association lists with string keys, matching the
JSON-derived dicts the engine manipulates.  External effects (the mapping
file, the filesystem, the executor HTTP service, module execution, the celery
broker) are parameters of the model, and the calls the engine makes to them
are reified as explicit action lists so that theorems can speak about which
calls happen.
-/

/-- Python runtime values as they occur in the engine: JSON values plus a
bytes variant (bytes are modelled as their list of byte values). -/
inductive Value where
  | null : Value
  | bool : Bool → Value
  | int : Int → Value
  | str : String → Value
  | bytes : List Nat → Value
  | list : List Value → Value
  | dict : List (String × Value) → Value

/-- Python truth value of `v is True` (identity with the `True` singleton). -/
def Value.isTrueV : Value → Bool
  | .bool true => true
  | _ => false

/-- `v is None` / `v is not None` test. -/
def Value.isNull : Value → Bool
  | .null => true
  | _ => false

/-- Python truthiness (`bool(v)`): None, False, 0, "", b"", [], {} are falsy. -/
def Value.truthy : Value → Bool
  | .null => false
  | .bool b => b
  | .int n => n != 0
  | .str s => s != ""
  | .bytes bs => !bs.isEmpty
  | .list xs => !xs.isEmpty
  | .dict kvs => !kvs.isEmpty

/-- Whether the value is a dict (`isinstance(v, dict)`). -/
def Value.isDictB : Value → Bool
  | .dict _ => true
  | _ => false

/-- Whether the value is a string (`isinstance(v, str)`). -/
def Value.isStrB : Value → Bool
  | .str _ => true
  | _ => false

/-- Whether the value is bytes/bytearray (`isinstance(v, (bytes, bytearray))`). -/
def Value.isBytesB : Value → Bool
  | .bytes _ => true
  | _ => false

/-- Python `v == s` for a string literal `s`: true only when `v` is that string. -/
def Value.isStrEq : Value → String → Bool
  | .str t, s => t == s
  | _, _ => false

/-- `d.get(k)` on an association-list dict: the first binding of `k`, or
None when absent (Python's `.get` default). -/
def dictGet (kvs : List (String × Value)) (k : String) : Value :=
  match kvs.find? (fun p => p.1 == k) with
  | some p => p.2
  | none => Value.null

/-- `k in d`: key membership. -/
def hasKey (kvs : List (String × Value)) (k : String) : Bool :=
  kvs.any (fun p => p.1 == k)

/-- `v.get(k)` where `v` is a dict in every reachable call (nodes and
trigger metadata are dicts built by the registration layer); on a non-dict
the model returns None where Python would raise AttributeError. -/
def pyGet (v : Value) (k : String) : Value :=
  match v with
  | .dict kvs => dictGet kvs k
  | _ => Value.null

/-- `v.get(k, default)` with an explicit default. -/
def pyGetD (v : Value) (k : String) (d : Value) : Value :=
  match v with
  | .dict kvs =>
    match kvs.find? (fun p => p.1 == k) with
    | some p => p.2
    | none => d
  | _ => d

/-- A single-quote character as a string, used to build the engine's
error-message literals. -/
def quoteS : String := ⟨[Char.ofNat 39]⟩

/-- UTF-8 continuation byte test (10xxxxxx). -/
def contByte (b : Nat) : Bool := 128 ≤ b && b < 192

/-- Strict UTF-8 decoding (`bytes.decode("utf-8")`), rejecting truncated
sequences, overlong encodings, surrogates and out-of-range code points;
returns none where Python raises UnicodeDecodeError. -/
def utf8Decode : List Nat → Option (List Char)
  | [] => some []
  | b :: rest =>
    if b < 128 then
      (utf8Decode rest).map (fun cs => Char.ofNat b :: cs)
    else if 194 ≤ b && b ≤ 223 then
      match rest with
      | b2 :: rest2 =>
        if contByte b2 then
          (utf8Decode rest2).map (fun cs => Char.ofNat ((b - 192) * 64 + (b2 - 128)) :: cs)
        else none
      | _ => none
    else if 224 ≤ b && b ≤ 239 then
      match rest with
      | b2 :: b3 :: rest3 =>
        if contByte b2 && contByte b3 then
          let cp := (b - 224) * 4096 + (b2 - 128) * 64 + (b3 - 128)
          if 2048 ≤ cp && !(55296 ≤ cp && cp ≤ 57343) then
            (utf8Decode rest3).map (fun cs => Char.ofNat cp :: cs)
          else none
        else none
      | _ => none
    else if 240 ≤ b && b ≤ 244 then
      match rest with
      | b2 :: b3 :: b4 :: rest4 =>
        if contByte b2 && contByte b3 && contByte b4 then
          let cp := (b - 240) * 262144 + (b2 - 128) * 4096 + (b3 - 128) * 64 + (b4 - 128)
          if 65536 ≤ cp && cp ≤ 1114111 then
            (utf8Decode rest4).map (fun cs => Char.ofNat cp :: cs)
          else none
        else none
      | _ => none
    else none

/-- JSON insignificant whitespace (the exact four characters `json` skips). -/
def jsonWs (c : Char) : Bool := c = ' ' || c = '\t' || c = '\n' || c = '\r'

/-- Opening brace character (written via its code point). -/
def obChar : Char := Char.ofNat 123

/-- Closing brace character (written via its code point). -/
def cbChar : Char := Char.ofNat 125

/-- Body of a JSON string literal after the opening quote: returns the decoded
characters and the input past the closing quote.  `\uXXXX` escapes are outside
the model (none is returned); no theorem depends on them. -/
def parseStrChars : List Char → Option (List Char × List Char)
  | [] => none
  | c :: rest =>
    if c = '"' then some ([], rest)
    else if c = '\\' then
      match rest with
      | [] => none
      | e :: rest2 =>
        let push (d : Char) : Option (List Char × List Char) :=
          (parseStrChars rest2).map (fun p => (d :: p.1, p.2))
        if e = '"' then push '"'
        else if e = '\\' then push '\\'
        else if e = '/' then push '/'
        else if e = 'n' then push '\n'
        else if e = 't' then push '\t'
        else if e = 'r' then push '\r'
        else if e = 'b' then push (Char.ofNat 8)
        else if e = 'f' then push (Char.ofNat 12)
        else none
    else if c.toNat < 32 then none
    else (parseStrChars rest).map (fun p => (c :: p.1, p.2))

/-- JSON number: an optional sign and digits, with JSON's no-leading-zero
rule.  Fractional/exponent forms (floats) are outside the model and yield
none; no claim exercises float payloads. -/
def parseNum (cs : List Char) : Option (Value × List Char) :=
  let neg : Bool := match cs with
    | c :: _ => c == '-'
    | [] => false
  let body := if neg then cs.tail else cs
  let ds := body.takeWhile (fun c => c.isDigit)
  let rest := body.dropWhile (fun c => c.isDigit)
  if ds.isEmpty then none
  else if ds.length > 1 && ds.headD '0' = '0' then none
  else
    match rest with
    | r :: _ =>
      if r = '.' || r = 'e' || r = 'E' then none
      else
        let n : Nat := ds.foldl (fun a c => a * 10 + (c.toNat - 48)) 0
        some (Value.int (if neg then -(n : Int) else (n : Int)), rest)
    | [] =>
      let n : Nat := ds.foldl (fun a c => a * 10 + (c.toNat - 48)) 0
      some (Value.int (if neg then -(n : Int) else (n : Int)), rest)

mutual

/-- One JSON value, fuelled recursive-descent (fuel bounds nesting and
element count; `jsonLoads` supplies ample fuel). -/
def parseVal : Nat → List Char → Option (Value × List Char)
  | 0, _ => none
  | Nat.succ fuel, cs0 =>
    let cs := cs0.dropWhile jsonWs
    match cs with
    | 'n' :: 'u' :: 'l' :: 'l' :: rest => some (Value.null, rest)
    | 't' :: 'r' :: 'u' :: 'e' :: rest => some (Value.bool true, rest)
    | 'f' :: 'a' :: 'l' :: 's' :: 'e' :: rest => some (Value.bool false, rest)
    | '"' :: rest => (parseStrChars rest).map (fun p => (Value.str (String.mk p.1), p.2))
    | '[' :: rest =>
      let rest1 := rest.dropWhile jsonWs
      (match rest1 with
       | ']' :: rest2 => some (Value.list [], rest2)
       | _ => (parseElems fuel rest1).map (fun p => (Value.list p.1, p.2)))
    | c :: rest =>
      if c = obChar then
        let rest1 := rest.dropWhile jsonWs
        (match rest1 with
         | d :: rest2 =>
           if d = cbChar then some (Value.dict [], rest2)
           else (parseMembers fuel rest1).map (fun p => (Value.dict p.1, p.2))
         | [] => none)
      else parseNum cs
    | [] => none

/-- Comma-separated array elements up to the closing bracket. -/
def parseElems : Nat → List Char → Option (List Value × List Char)
  | 0, _ => none
  | Nat.succ fuel, cs =>
    match parseVal fuel cs with
    | none => none
    | some (v, r) =>
      let r1 := r.dropWhile jsonWs
      match r1 with
      | ',' :: r2 => (parseElems fuel r2).map (fun p => (v :: p.1, p.2))
      | ']' :: r2 => some ([v], r2)
      | _ => none

/-- Comma-separated object members up to the closing brace. -/
def parseMembers : Nat → List Char → Option (List (String × Value) × List Char)
  | 0, _ => none
  | Nat.succ fuel, cs =>
    match cs.dropWhile jsonWs with
    | '"' :: r =>
      match parseStrChars r with
      | none => none
      | some (kcs, r1) =>
        match r1.dropWhile jsonWs with
        | ':' :: r2 =>
          match parseVal fuel r2 with
          | none => none
          | some (v, r3) =>
            let r4 := r3.dropWhile jsonWs
            (match r4 with
             | c :: r5 =>
               if c = ',' then
                 (parseMembers fuel r5).map (fun p => ((String.mk kcs, v) :: p.1, p.2))
               else if c = cbChar then some ([(String.mk kcs, v)], r5)
               else none
             | [] => none)
        | _ => none
    | _ => none

end

/-- `json.loads` on the modelled JSON subset (null, booleans, integers,
strings, arrays, objects): the whole input, up to surrounding whitespace,
must be one value; none stands for a raised ValueError. -/
def jsonLoads (s : String) : Option Value :=
  match parseVal (2 * s.length + 2) s.data with
  | some (v, rest) => if (rest.dropWhile jsonWs).isEmpty then some v else none
  | none => none

/-- `_coerce_prev` (tasks.py:182-202): JSON-decode a string or
utf-8-decodable bytes value; fall back to the decoded text when JSON parsing
fails, to the raw value when decoding fails, and leave every other value
untouched. -/
def coercePrev : Value → Value
  | .bytes bs =>
    (match utf8Decode bs with
     | some cs =>
       let txt := String.mk cs
       (match jsonLoads txt with
        | some v => v
        | none => Value.str txt)
     | none => Value.bytes bs)
  | .str s =>
    (match jsonLoads s with
     | some v => v
     | none => Value.str s)
  | v => v

example : jsonLoads "null" = some Value.null := rfl
example : jsonLoads "42" = some (Value.int 42) := rfl
example : jsonLoads "\"42\"" = some (Value.str "42") := rfl
example : jsonLoads "hello" = none := rfl
example : jsonLoads " [1, true, \"a\"] " = some (Value.list [Value.int 1, Value.bool true, Value.str "a"]) := rfl
example : coercePrev (Value.str "\"42\"") = Value.str "42" := rfl
example : coercePrev (Value.str "42") = Value.int 42 := rfl
example : coercePrev (Value.str "not json") = Value.str "not json" := rfl

mutual

/-- Python `repr` of a value (used by f-string interpolation of containers).
Only scalar logic names are reachable (registration enforces `logic: str`),
so the container cases matter only for totality; string escaping inside
container repr is elided. -/
def pyRepr : Value → String
  | .null => "None"
  | .bool true => "True"
  | .bool false => "False"
  | .int n => toString n
  | .str s => quoteS ++ s ++ quoteS
  | .bytes _ => "b" ++ quoteS ++ quoteS
  | .list xs => "[" ++ pyReprList xs ++ "]"
  | .dict kvs => "\x7b" ++ pyReprDict kvs ++ "\x7d"

/-- Comma-joined reprs of list elements. -/
def pyReprList : List Value → String
  | [] => ""
  | [v] => pyRepr v
  | v :: vs => pyRepr v ++ ", " ++ pyReprList vs

/-- Comma-joined reprs of dict entries. -/
def pyReprDict : List (String × Value) → String
  | [] => ""
  | [(k, v)] => quoteS ++ k ++ quoteS ++ ": " ++ pyRepr v
  | (k, v) :: kvs => quoteS ++ k ++ quoteS ++ ": " ++ pyRepr v ++ ", " ++ pyReprDict kvs

end

/-- Python `str(v)` / f-string interpolation: identity on strings, repr-like
elsewhere. -/
def pyStr (v : Value) : String :=
  match v with
  | .str s => s
  | _ => pyRepr v

/-- The characters after the last path separator. -/
def basenameChars (cs : List Char) : List Char :=
  cs.foldl (fun acc c => if c = '/' then [] else acc ++ [c]) []

/-- `os.path.basename` on POSIX: the component after the last `/`. -/
def pyBasename (s : String) : String := String.mk (basenameChars s.data)

/-- `os.path.join(a, b)` on POSIX for two components. -/
def pyJoin (a b : String) : String :=
  if b.startsWith "/" then b
  else if a == "" || a.endsWith "/" then a ++ b
  else a ++ "/" ++ b

/-- The fixed logic directory (`API_CALLS_DIR`, default `/app/api_calls`). -/
def apiCallsDir : String := "/app/api_calls"

/-- `safe_join_api_calls` (tasks.py:68-70): join the fixed directory with the
basename of the requested filename.  The basename contains no separator, so
it is never an absolute path, and `API_CALLS_DIR` has no trailing slash, so
`os.path.join` inserts exactly one separator. -/
def safeJoinApiCalls (filename : String) : String :=
  apiCallsDir ++ "/" ++ pyBasename filename

/-- `mapping.get(logic_name)`: the mapping file is a flat name-to-filename
JSON object (load_mapping discards any non-dict), its keys are strings, so a
non-string logic name never matches. -/
def mapLookup (m : List (String × String)) (k : Value) : Option String :=
  match k with
  | .str s =>
    (match m.find? (fun p => p.1 == s) with
     | some p => some p.2
     | none => none)
  | _ => none

/-- External collaborators of `run_logic`, abstracted: the loaded mapping,
filesystem existence, module execution (`_execute_api_call_file`) and the
executor service call (`_call_executor_service`), the latter two as functions
from their arguments to the outcome they return. -/
structure Env where
  mapping : List (String × String)
  fileExists : String → Bool
  execFile : String → Value → Value → Value → Value
  execService : Value → Value → Value → Value → Value

/-- The external calls `run_logic` makes, reified: a POST of code to the
executor service, or loading-and-executing a handler file at a path.  Each
records the `prev` value delivered. -/
inductive EngineCall where
  | callExecutor : Value → Value → EngineCall
  | execFile : String → Value → EngineCall

/-- The `prev` value an action delivers to the handler or sandbox. -/
def EngineCall.prevOf : EngineCall → Value
  | .callExecutor _ p => p
  | .execFile _ p => p

/-- NO PASS THROUGH detection (tasks.py:218-225): the flag is set when the
node metadata is truthy and carries `NO PASS THROUGH` or `no_pass_through`
with the value True, or a `tags` list containing `"NO PASS THROUGH"`. -/
def noPassFlag (nodeMeta : Value) : Bool :=
  if nodeMeta.truthy then
    (pyGet nodeMeta "NO PASS THROUGH").isTrueV
      || (pyGet nodeMeta "no_pass_through").isTrueV
      || (match pyGet nodeMeta "tags" with
          | .list xs => xs.any (fun t => t.isStrEq "NO PASS THROUGH")
          | _ => false)
  else false

/-- Custom-node detection (tasks.py:212-216): the logic name is the sentinel
`"custom"`, or params is a dict whose `_type` is `"custom"`. -/
def isCustomNode (logicName : Value) (params : Value) : Bool :=
  logicName.isStrEq "custom"
    || (params.isDictB && (pyGet params "_type").isStrEq "custom")

/-- The code lookup for an inline node (tasks.py:233-237): `params["code"]`,
falling back to `params["args"][0]` when `code` is None/absent and `args` is
a non-empty list. -/
def customCodeStr (params : Value) : Value :=
  match params with
  | .dict kvs =>
    let c := dictGet kvs "code"
    if c.isNull then
      (match dictGet kvs "args" with
       | .list (a :: _) => a
       | _ => Value.null)
    else c
  | _ => Value.null

/-- An `{"ok": False, "error": msg}` outcome. -/
def errVal (msg : String) : Value :=
  Value.dict [("ok", Value.bool false), ("error", Value.str msg)]

/-- The missing-code error message of tasks.py:239. -/
def msgMissingCode : String :=
  "custom node requires params[" ++ quoteS ++ "code" ++ quoteS ++ "] (string)"

/-- The no-mapping error outcome of tasks.py:253. -/
def noMappingErr (logicName : Value) : Value :=
  Value.dict [("ok", Value.bool false),
    ("error", Value.str ("no file mapping for logic " ++ quoteS ++ pyStr logicName ++ quoteS)),
    ("logic", logicName)]

/-- The mapped-file-not-found error outcome of tasks.py:258. -/
def mappedNotFoundErr (filename : String) (path : String) : Value :=
  Value.dict [("ok", Value.bool false),
    ("error", Value.str ("mapped file " ++ quoteS ++ filename ++ quoteS ++ " not found")),
    ("path", Value.str path)]

/-- Filename resolution for a file-based node (tasks.py:243-253): the mapping
value when present and non-empty (`if not filename` treats an empty string
like a missing key), else the `<logic_name>.py` fallback when that file
exists in the logic directory, else none (the no-mapping error). -/
def chooseFilename (env : Env) (logicName : Value) : Option String :=
  let fromMap := mapLookup env.mapping logicName
  let needFallback : Bool := match fromMap with
    | none => true
    | some fn => fn == ""
  if needFallback then
    let guessed := pyJoin apiCallsDir (pyStr logicName ++ ".py")
    if env.fileExists guessed then some (pyStr logicName ++ ".py") else none
  else fromMap

/-- `run_logic` (tasks.py:205-265): classify the node, apply the
NO PASS THROUGH policy, coerce `prev`, then dispatch to the executor service
(inline) or to a handler file (file-based).  Returns the outcome together
with the external calls made. -/
def runLogic (env : Env) (logicName : Value) (params : Value) (payload : Value)
    (prevOutput : Value) (nodeMeta : Value) : Value × List EngineCall :=
  let prevToPass := coercePrev (if noPassFlag nodeMeta then Value.null else prevOutput)
  if isCustomNode logicName params then
    let codeStr := customCodeStr params
    if codeStr.truthy = false then (errVal msgMissingCode, [])
    else (env.execService codeStr prevToPass params payload,
          [EngineCall.callExecutor codeStr prevToPass])
  else
    match chooseFilename env logicName with
    | none => (noMappingErr logicName, [])
    | some filename =>
      let filePath := safeJoinApiCalls filename
      if env.fileExists filePath = false then (mappedNotFoundErr filename filePath, [])
      else (env.execFile filePath prevToPass params payload,
            [EngineCall.execFile filePath prevToPass])

/-- The logic name the runner hands to `run_logic` (tasks.py:283-287):
`node["logic"]`, overridden to `"custom"` when `node["type"] == "custom"`. -/
def logicValueOf (node : Value) : Value :=
  if (pyGet node "type").isStrEq "custom" then Value.str "custom" else pyGet node "logic"

/-- `node.get("params", {}) or {}` (tasks.py:284). -/
def paramsOf (node : Value) : Value :=
  let p := pyGetD node "params" (Value.dict [])
  if p.truthy then p else Value.dict []

/-- One node dispatch as the runner performs it: `run_logic` applied to the
node's extracted logic name, params, the run payload, the incoming prev and
the node itself as metadata (tasks.py:292). -/
def runLogicNode (env : Env) (payload : Value) (node : Value) (prev : Value) :
    Value × List EngineCall :=
  runLogic env (logicValueOf node) (paramsOf node) payload prev node

/-- next_prev derivation (tasks.py:297-307): for a dict outcome with
`ok is True` and a `result` key, that field; else with `ok is True` and a
`stdout` key, that field; else the whole outcome (this is the path an error
outcome takes); a non-dict outcome is passed on verbatim. -/
def deriveNextPrev (res : Value) : Value :=
  match res with
  | .dict kvs =>
    if (dictGet kvs "ok").isTrueV && hasKey kvs "result" then dictGet kvs "result"
    else if (dictGet kvs "ok").isTrueV && hasKey kvs "stdout" then dictGet kvs "stdout"
    else Value.dict kvs
  | v => v

/-- The per-node result record appended by the runner (tasks.py:295). -/
def resultEntry (node : Value) (res : Value) : Value :=
  Value.dict [("node_id", pyGet node "id"), ("logic", logicValueOf node), ("result", res)]

/-- The node loop of `execute_pipeline` (tasks.py:281-309), over an abstract
per-node dispatch that may raise (Except.error models an exception escaping
the loop body; the faithful instantiation built on `runLogic` is total, the
abstraction also covers exceptions from layers outside the model).  Each
iteration coerces the incoming prev, dispatches, appends the result record
and threads `deriveNextPrev` of the outcome.  Returns the accumulated
records and, when an exception escaped, its message. -/
def runNodes (dispatch : Value → Value → Except String Value) :
    List Value → Value → List Value → List Value × Option String
  | [], _, acc => (acc, none)
  | node :: rest, prev, acc =>
    match dispatch node (coercePrev prev) with
    | .error e => (acc, some e)
    | .ok res => runNodes dispatch rest (deriveNextPrev res) (acc ++ [resultEntry node res])

/-- `payload if payload is not None else {}` (tasks.py:274). -/
def normPayload (payload : Value) : Value :=
  if payload.isNull then Value.dict [] else payload

/-- `trigger_meta or {}` (tasks.py:275). -/
def normTm (tm : Value) : Value :=
  if tm.truthy then tm else Value.dict []

/-- The recurring-trigger test (tasks.py:312): `trigger_type == "time"` and
`mode == "interval"`. -/
def timeInterval (tm : Value) : Bool :=
  (pyGet tm "trigger_type").isStrEq "time" && (pyGet tm "mode").isStrEq "interval"

/-- Python `int(v)` as an option: none models the ValueError/TypeError an
inconvertible value raises. -/
def pyIntOpt : Value → Option Int
  | .int n => some n
  | .bool b => some (if b then 1 else 0)
  | .str s => s.trim.toInt?
  | _ => none

/-- The `{"status": "success", "results": results}` return value
(tasks.py:320). -/
def successDict (results : List Value) : Value :=
  Value.dict [("status", Value.str "success"), ("results", Value.list results)]

/-- One `execute_pipeline.apply_async(args=[nodes, payload, trigger_meta],
countdown=c)` enqueue. -/
inductive Enqueue where
  | task : List Value → Value → Value → Int → Enqueue

/-- What one `execute_pipeline` invocation did: the per-node result records,
whether run-level FAILURE state was recorded (`self.update_state`), the
return value or the re-raised exception, and the enqueues issued. -/
structure PipeResult where
  results : List Value
  failureRecorded : Bool
  outcome : Except String Value
  enqueues : List Enqueue

/-- `execute_pipeline` (tasks.py:268-324): normalise payload and trigger
metadata, run the node loop, then — inside the same try block — re-enqueue
itself with the same arguments when the trigger is a recurring interval
trigger, and return the success value; any exception is recorded as FAILURE
state and re-raised. -/
def executePipeline (dispatch : Value → Value → Except String Value)
    (nodes : List Value) (payload0 : Value) (tm0 : Value) : PipeResult :=
  let payload := normPayload payload0
  let tm := normTm tm0
  match runNodes dispatch nodes payload [] with
  | (acc, some e) => ⟨acc, true, Except.error e, []⟩
  | (acc, none) =>
    if timeInterval tm then
      match pyIntOpt (pyGetD tm "interval_seconds" (Value.int 60)) with
      | some k => ⟨acc, false, Except.ok (successDict acc), [Enqueue.task nodes payload tm k]⟩
      | none => ⟨acc, true, Except.error "invalid literal for int()", []⟩
    else ⟨acc, false, Except.ok (successDict acc), []⟩

/-- Total enqueues after `n` further completed runs of the chain started by
one enqueued invocation, the starting enqueue included: each completed run
consumes its enqueue and issues the enqueues `execute_pipeline` makes; a
recurring run issues exactly one, which the chain follows. -/
def chainCount (dispatch : Value → Value → Except String Value) :
    Enqueue → Nat → Nat
  | _, 0 => 1
  | .task ns p tm _, Nat.succ n =>
    match (executePipeline dispatch ns p tm).enqueues with
    | [e] => 1 + chainCount dispatch e n
    | es => 1 + es.length

/-- Registration of a one-shot time trigger (main.py:86-100): timestamps in
microseconds (datetime resolution); `(at - now).total_seconds()` is negative
exactly when `at < now`, and `int(delay)` for an accepted (non-negative)
delay is the floor of the second count.  On acceptance exactly one runner
invocation is enqueued with that countdown. -/
def onceMeta (flowId : String) : Value :=
  Value.dict [("trigger_type", Value.str "time"), ("mode", Value.str "once"),
    ("flow_id", Value.str flowId)]

/-- See `onceMeta`; Except.error models the HTTP 400 rejection raised before
any enqueue. -/
def registerOnce (nodes : List Value) (flowId : String) (at_ now : Int) :
    Except String (List Enqueue) :=
  let delayUs := at_ - now
  if delayUs < 0 then Except.error (quoteS ++ "at" ++ quoteS ++ " must be in the future")
  else Except.ok [Enqueue.task nodes (Value.dict []) (onceMeta flowId) (delayUs / 1000000)]

/-- Behaviour of the sandbox child process for one execution: it either hits
the wall-clock timeout (with the partial stdout/stderr `TimeoutExpired`
carries, possibly None) or exits with a return code and captured streams. -/
inductive ChildResult where
  | timedOut : Option String → Option String → ChildResult
  | exited : Int → String → String → ChildResult

/-- The executor host for one request: whether `subprocess.run` accepts the
`preexec_fn` resource-limit hook (when it does not, the first invocation
raises TypeError and the no-preexec fallback invocation runs), and what the
child process does. -/
structure ExecEnv where
  preexecSupported : Bool
  child : ChildResult

/-- The side effects of the `/run` endpoint the claims track: creating the
temporary program file and spawning the child process. -/
inductive ExecAction where
  | mkTempFile : ExecAction
  | spawnChild : ExecAction

/-- `str(subprocess.TimeoutExpired(...))`: the argv is elided in the model;
only its difference from the literal `"timeout"` matters. -/
def timeoutExpiredMsg (t : Int) : String :=
  "Command timed out after " ++ toString t ++ " seconds"

/-- An optional captured stream as the JSON value the response carries. -/
def optStrV : Option String → Value
  | some s => Value.str s
  | none => Value.null

/-- Whether `not code or not code.strip()` holds: every character is
whitespace (ASCII whitespace in the model).  Empty code is the all-blank
case with no characters. -/
def pyStripBlank (s : String) : Bool :=
  s.data.all (fun c => c.isWhitespace)

/-- `run_code` (executor.py:38-110).  `code` is a string by the request
model's `code: str` field; blank code is rejected with HTTP 400 (modelled as
Except.error) before the temporary file exists.  `req.timeout_seconds or
DEFAULT_TIMEOUT` treats 0 as absent.  On the primary invocation a timeout is
caught by the `except subprocess.TimeoutExpired` clause; on the fallback
invocation (preexec unsupported) a timeout is raised inside the
`except TypeError` handler, which sibling clauses do not catch, so it reaches
the outer generic `except Exception` handler.  On normal exit, stdout is
JSON-parsed and the parsed value is used only when it `is not None`. -/
def runCode (env : ExecEnv) (code : String) (timeoutSeconds : Option Int) :
    Except (Nat × String) Value × List ExecAction :=
  if pyStripBlank code then (Except.error (400, "empty code"), [])
  else
    let t : Int := match timeoutSeconds with
      | some v => if v == 0 then 5 else v
      | none => 5
    let acts := [ExecAction.mkTempFile, ExecAction.spawnChild]
    match env.child with
    | .timedOut po pe =>
      if env.preexecSupported then
        (Except.ok (Value.dict [("ok", Value.bool false), ("error", Value.str "timeout"),
          ("timeout_seconds", Value.int t), ("stdout", optStrV po), ("stderr", optStrV pe)]),
         acts)
      else
        (Except.ok (Value.dict [("ok", Value.bool false),
          ("error", Value.str (timeoutExpiredMsg t)),
          ("traceback", Value.str ("subprocess.TimeoutExpired: " ++ timeoutExpiredMsg t))]),
         acts)
    | .exited rc so se =>
      let stdoutField := match jsonLoads so with
        | some v => if v.isNull then Value.str so else v
        | none => Value.str so
      (Except.ok (Value.dict [("ok", Value.bool (rc == 0)), ("returncode", Value.int rc),
        ("stdout", stdoutField), ("stderr", Value.str se)]), acts)

/-- An inert environment: empty mapping, no files, collaborators returning
None; used to evaluate the model at concrete inputs. -/
def env0 : Env :=
  ⟨[], fun _ => false, fun _ _ _ _ => Value.null, fun _ _ _ _ => Value.null⟩

/-- An environment whose mapping sends `logicA` to a traversal-laden
filename and whose filesystem reports every path as existing. -/
def env1 : Env :=
  ⟨[("logicA", "../../etc/x.py")], fun _ => true,
   fun _ _ _ _ => Value.null, fun _ _ _ _ => Value.null⟩

/-- A recurring interval trigger metadata value as `register_trigger`
builds it (main.py:106). -/
def tmInterval7 : Value :=
  Value.dict [("trigger_type", Value.str "time"), ("mode", Value.str "interval"),
    ("interval_seconds", Value.int 7), ("flow_id", Value.str "f1")]

/-- A dispatch that always succeeds with None, for concrete evaluation. -/
def dispatchNull : Value → Value → Except String Value :=
  fun _ _ => Except.ok Value.null

/-- An inline node carrying code `"y"`, for concrete evaluation. -/
def nodeInline : Value :=
  Value.dict [("id", Value.str "n0"), ("type", Value.str "custom"),
    ("params", Value.dict [("code", Value.str "y")])]

theorem runLogic_call_prev (env : Env) (l params payload prev meta : Value) (a : EngineCall)
    (h : a ∈ (runLogic env l params payload prev meta).2) :
    a.prevOf = coercePrev (if noPassFlag meta then Value.null else prev) := by
  simp only [runLogic] at h
  split at h
  · split at h
    · simp at h
    · simp at h
      subst h
      rfl
  · split at h
    · simp at h
    · split at h
      · simp at h
      · simp at h
        subst h
        rfl

theorem runLogic_execFile_path (env : Env) (l params payload prev meta : Value)
    (p : String) (pv : Value)
    (h : EngineCall.execFile p pv ∈ (runLogic env l params payload prev meta).2) :
    ∃ fn : String, chooseFilename env l = some fn ∧ p = safeJoinApiCalls fn := by
  simp only [runLogic] at h
  split at h
  · split at h
    · simp at h
    · simp at h
  · split at h
    · simp at h
    · next filename heq =>
      split at h
      · simp at h
      · simp at h
        exact ⟨filename, heq, h.1⟩

theorem foldl_basename_no_slash (cs : List Char) :
    ∀ acc : List Char, '/' ∉ acc →
      '/' ∉ cs.foldl (fun acc c => if c = '/' then [] else acc ++ [c]) acc := by
  induction cs with
  | nil => intro acc hacc; simpa using hacc
  | cons c cs ih =>
    intro acc hacc
    rw [List.foldl_cons]
    by_cases hc : c = '/'
    · rw [if_pos hc]
      exact ih [] (List.not_mem_nil _)
    · rw [if_neg hc]
      refine ih (acc ++ [c]) ?_
      intro hmem
      rcases List.mem_append.mp hmem with h1 | h2
      · exact hacc h1
      · exact hc (List.mem_singleton.mp h2).symm

theorem pyBasename_no_slash (s : String) : '/' ∉ (pyBasename s).data :=
  foldl_basename_no_slash s.data [] (List.not_mem_nil _)

theorem runNodes_total_none (dispatch : Value → Value → Except String Value)
    (htot : ∀ nd pr, ∃ r, dispatch nd pr = Except.ok r) :
    ∀ (ns : List Value) (prev : Value) (acc : List Value),
      (runNodes dispatch ns prev acc).2 = none := by
  intro ns
  induction ns with
  | nil => intro prev acc; rfl
  | cons node rest ih =>
    intro prev acc
    obtain ⟨r, hr⟩ := htot node (coercePrev prev)
    rw [runNodes, hr]
    exact ih _ _

theorem runNodes_shape (dispatch : Value → Value → Except String Value) :
    ∀ (ns : List Value) (prev : Value) (acc rs : List Value),
      runNodes dispatch ns prev acc = (rs, none) →
      ∃ tail : List Value, rs = acc ++ tail ∧ tail.length = ns.length ∧
        ∀ (i : Nat) (h1 : i < ns.length) (h2 : i < tail.length),
          tail.get ⟨i, h2⟩ =
            resultEntry (ns.get ⟨i, h1⟩) (pyGet (tail.get ⟨i, h2⟩) "result") := by
  intro ns
  induction ns with
  | nil =>
    intro prev acc rs h
    rw [runNodes] at h
    refine ⟨[], ?_, rfl, ?_⟩
    · have hacc : acc = rs := congrArg Prod.fst h
      simp [hacc]
    · intro i h1 h2
      exact absurd h2 (by simp)
  | cons node rest ih =>
    intro prev acc rs h
    rw [runNodes] at h
    cases hd : dispatch node (coercePrev prev) with
    | error e =>
      rw [hd] at h
      exact absurd (congrArg Prod.snd h) (by simp)
    | ok res =>
      rw [hd] at h
      obtain ⟨tail, ht1, ht2, ht3⟩ := ih (deriveNextPrev res) (acc ++ [resultEntry node res]) rs h
      refine ⟨resultEntry node res :: tail, ?_, by simp [ht2], ?_⟩
      · rw [ht1]; simp
      · intro i h1 h2
        cases i with
        | zero => rfl
        | succ j =>
          have h1j : j < rest.length := by simpa using h1
          have h2j : j < tail.length := by simpa using h2
          simpa using ht3 j h1j h2j

theorem normTm_of_get (tm : Value) (key s : String)
    (h : (pyGet tm key).isStrEq s = true) : normTm tm = tm := by
  cases tm with
  | dict kvs =>
    cases kvs with
    | nil => simp [pyGet, dictGet, Value.isStrEq] at h
    | cons hd tl => simp [normTm, Value.truthy]
  | null => simp [pyGet, Value.isStrEq] at h
  | bool b => simp [pyGet, Value.isStrEq] at h
  | int n => simp [pyGet, Value.isStrEq] at h
  | str t => simp [pyGet, Value.isStrEq] at h
  | bytes bs => simp [pyGet, Value.isStrEq] at h
  | list xs => simp [pyGet, Value.isStrEq] at h

/-- C1: the previous-output handed to the next node follows the fixed
precedence — a dict outcome with `ok is True` and a `result` key yields that
field; else with `ok is True` and a `stdout` key, that field; else the whole
outcome verbatim (non-dict outcomes included) — and the node loop proceeds
to the next node with that value for every dispatched outcome, error
outcomes included. -/
theorem next_prev_precedence :
    (∀ kvs : List (String × Value),
      (dictGet kvs "ok").isTrueV = true → hasKey kvs "result" = true →
      deriveNextPrev (Value.dict kvs) = dictGet kvs "result") ∧
    (∀ kvs : List (String × Value),
      (dictGet kvs "ok").isTrueV = true → hasKey kvs "result" = false →
      hasKey kvs "stdout" = true →
      deriveNextPrev (Value.dict kvs) = dictGet kvs "stdout") ∧
    (∀ kvs : List (String × Value),
      (dictGet kvs "ok").isTrueV = false ∨
        (hasKey kvs "result" = false ∧ hasKey kvs "stdout" = false) →
      deriveNextPrev (Value.dict kvs) = Value.dict kvs) ∧
    (∀ v : Value, v.isDictB = false → deriveNextPrev v = v) ∧
    (∀ (dispatch : Value → Value → Except String Value) (node : Value)
        (rest : List Value) (prev : Value) (acc : List Value) (res : Value),
      dispatch node (coercePrev prev) = Except.ok res →
      runNodes dispatch (node :: rest) prev acc =
        runNodes dispatch rest (deriveNextPrev res) (acc ++ [resultEntry node res])) := by
  refine ⟨?_, ?_, ?_, ?_, ?_⟩
  · intro kvs h1 h2
    simp [deriveNextPrev, h1, h2]
  · intro kvs h1 h2 h3
    simp [deriveNextPrev, h1, h2, h3]
  · intro kvs h
    rcases h with h | ⟨h1, h2⟩ <;> simp [deriveNextPrev, *]
  · intro v h
    cases v with
    | dict kvs => simp [Value.isDictB] at h
    | null => rfl
    | bool b => rfl
    | int n => rfl
    | str s => rfl
    | bytes bs => rfl
    | list xs => rfl
  · intro dispatch node rest prev acc res h
    rw [runNodes, h]

/-- C1 witness: the result branch at a concrete Ok outcome, and the loop
stepping over a concrete error outcome. -/
theorem next_prev_witness :
    deriveNextPrev (Value.dict [("ok", Value.bool true), ("result", Value.int 7)])
      = Value.int 7 ∧
    runNodes (fun _ _ => Except.ok (errVal "boom"))
        [Value.dict [("id", Value.str "n1")]] Value.null []
      = runNodes (fun _ _ => Except.ok (errVal "boom")) [] (deriveNextPrev (errVal "boom"))
          ([] ++ [resultEntry (Value.dict [("id", Value.str "n1")]) (errVal "boom")]) :=
  ⟨next_prev_precedence.1 _ rfl rfl,
   next_prev_precedence.2.2.2.2 _ _ _ _ _ _ rfl⟩

/-- C2: a node whose metadata sets the NO PASS THROUGH flag (directly or via
its tags list) has None delivered as `prev` by every external call its
dispatch makes, regardless of the predecessor's outcome; without the flag
the incoming derived output (coerced, see `_coerce_prev`) is delivered. -/
theorem no_pass_through_null_prev (env : Env) (l params payload prev meta : Value)
    (a : EngineCall) (h : a ∈ (runLogic env l params payload prev meta).2) :
    (noPassFlag meta = true → a.prevOf = Value.null) ∧
    (noPassFlag meta = false → a.prevOf = coercePrev prev) := by
  have hp := runLogic_call_prev env l params payload prev meta a h
  constructor
  · intro hf
    rw [hp, hf]
    rfl
  · intro hf
    rw [hp, hf]
    rfl

/-- C2 witness: a tags-flagged node delivers None even though the
predecessor produced a value. -/
theorem no_pass_through_witness :
    EngineCall.prevOf (EngineCall.callExecutor (Value.str "x") Value.null) = Value.null :=
  (no_pass_through_null_prev env0 (Value.str "custom")
    (Value.dict [("code", Value.str "x")]) (Value.dict []) (Value.str "prior")
    (Value.dict [("tags", Value.list [Value.str "NO PASS THROUGH"])])
    (EngineCall.callExecutor (Value.str "x") Value.null)
    (List.mem_singleton.mpr rfl)).1 rfl

/-- C10: the string/bytes-to-JSON coercion is applied twice to the derived
previous output (once in the runner loop, once inside dispatch); it is the
identity on values that are neither strings nor bytes, but it is not
idempotent on strings: the string `"42"` (quotes included) JSON-decodes to
the JSON-decodable string `42`, so the double coercion yields the integer
42 where a single coercion yields the string. -/
theorem coerce_twice_spec :
    (∀ v : Value, v.isStrB = false → v.isBytesB = false → coercePrev v = v) ∧
    (coercePrev (Value.str "\"42\"") = Value.str "42" ∧
      coercePrev (Value.str "42") = Value.int 42 ∧
      coercePrev (coercePrev (Value.str "\"42\"")) ≠ coercePrev (Value.str "\"42\"")) ∧
    (∀ (env : Env) (payload node prevOut : Value) (a : EngineCall),
      noPassFlag node = false →
      a ∈ (runLogicNode env payload node (coercePrev prevOut)).2 →
      a.prevOf = coercePrev (coercePrev prevOut)) := by
  refine ⟨?_, ⟨rfl, rfl, ?_⟩, ?_⟩
  · intro v h1 h2
    cases v with
    | str s => simp [Value.isStrB] at h1
    | bytes bs => simp [Value.isBytesB] at h2
    | null => rfl
    | bool b => rfl
    | int n => rfl
    | list xs => rfl
    | dict kvs => rfl
  · intro h
    have h1 : coercePrev (coercePrev (Value.str "\"42\"")) = Value.int 42 := rfl
    have h2 : coercePrev (Value.str "\"42\"") = Value.str "42" := rfl
    rw [h1, h2] at h
    exact Value.noConfusion h
  · intro env payload node prevOut a hf h
    have hp := runLogic_call_prev env (logicValueOf node) (paramsOf node) payload
      (coercePrev prevOut) node a h
    rw [hp, hf]
    rfl

/-- C10 witness: identity on a non-string value, and the doubly-coerced
prev delivered to the sandbox for a concrete inline node. -/
theorem coerce_twice_witness :
    coercePrev (Value.int 3) = Value.int 3 ∧
    EngineCall.prevOf (EngineCall.callExecutor (Value.str "y") (Value.int 42))
      = coercePrev (coercePrev (Value.str "\"42\"")) :=
  ⟨coerce_twice_spec.1 (Value.int 3) rfl rfl,
   coerce_twice_spec.2.2 env0 (Value.dict []) nodeInline (Value.str "\"42\"")
     (EngineCall.callExecutor (Value.str "y") (Value.int 42)) rfl
     (List.mem_singleton.mpr rfl)⟩

/-- C5 counterexample: an inline node whose params carry no non-empty code
string anywhere — the `code` field holds the integer 5 and there is no
`args` fallback — nonetheless causes a call to the sandbox service, because
`if not code_str` lets any truthy non-string value through. -/
theorem nonstring_code_reaches_executor :
    dictGet [("_type", Value.str "custom"), ("code", Value.int 5)] "code" = Value.int 5 ∧
    dictGet [("_type", Value.str "custom"), ("code", Value.int 5)] "args" = Value.null ∧
    (runLogic env0 (Value.str "x")
        (Value.dict [("_type", Value.str "custom"), ("code", Value.int 5)])
        (Value.dict []) Value.null (Value.dict [])).2
      = [EngineCall.callExecutor (Value.int 5) Value.null] :=
  ⟨rfl, rfl, rfl⟩

/-- C5 (amended): an inline node whose code lookup (the `code` field,
falling back to `args[0]`) yields no truthy value gets the missing-code Err
outcome and dispatch makes no external call at all; and the sandbox endpoint
rejects blank code with HTTP 400 before creating any temporary file or
spawning any child. -/
theorem missing_code_no_executor_call :
    (∀ (env : Env) (l params payload prev meta : Value),
      isCustomNode l params = true →
      (customCodeStr params).truthy = false →
      runLogic env l params payload prev meta = (errVal msgMissingCode, [])) ∧
    (∀ (ee : ExecEnv) (c : String) (t : Option Int),
      pyStripBlank c = true →
      runCode ee c t = (Except.error (400, "empty code"), [])) := by
  constructor
  · intro env l params payload prev meta h1 h2
    simp [runLogic, h1, h2]
  · intro ee c t h
    simp [runCode, h]

/-- C5 witness: an inline node with empty params yields the Err outcome and
no calls; blank code is rejected by the endpoint with no side effects. -/
theorem missing_code_witness :
    runLogic env0 (Value.str "custom") (Value.dict []) (Value.dict [])
        Value.null (Value.dict [])
      = (errVal msgMissingCode, []) ∧
    runCode ⟨true, ChildResult.exited 0 "" ""⟩ "   " none
      = (Except.error (400, "empty code"), []) :=
  ⟨missing_code_no_executor_call.1 env0 (Value.str "custom") (Value.dict [])
     (Value.dict []) Value.null (Value.dict []) rfl rfl,
   missing_code_no_executor_call.2 ⟨true, ChildResult.exited 0 "" ""⟩ "   " none rfl⟩

/-- C6 counterexample: a one-shot registration whose target instant equals
now — not strictly in the future — is not rejected: one runner invocation is
enqueued with countdown 0, because the code rejects only a strictly negative
delay. -/
theorem at_equal_now_accepted :
    ¬ ((0 : Int) < 0) ∧
    registerOnce [] "flow" 0 0
      = Except.ok [Enqueue.task [] (Value.dict []) (onceMeta "flow") 0] :=
  ⟨lt_irrefl 0, rfl⟩

/-- C6 (amended): a one-shot time registration is rejected, with nothing
enqueued, exactly when the target instant is strictly before now; whenever
its delay is non-negative — a target equal to now included — exactly one
runner invocation is enqueued, with countdown the floor of
`(at - now).total_seconds()` (timestamps in microseconds). -/
theorem register_once_delay_spec (ns : List Value) (f : String) (a n : Int) :
    (a < n → registerOnce ns f a n
      = Except.error (quoteS ++ "at" ++ quoteS ++ " must be in the future")) ∧
    (n ≤ a → registerOnce ns f a n
      = Except.ok [Enqueue.task ns (Value.dict []) (onceMeta f) ((a - n) / 1000000)]) := by
  constructor
  · intro h
    unfold registerOnce
    rw [if_pos (by omega : a - n < 0)]
  · intro h
    unfold registerOnce
    rw [if_neg (by omega : ¬ a - n < 0)]

/-- C6 witness: a future instant is scheduled with the truncated second
delay. -/
theorem register_once_witness :
    registerOnce [] "f" 5500000 2000000
      = Except.ok [Enqueue.task [] (Value.dict []) (onceMeta "f") 3] :=
  (register_once_delay_spec [] "f" 5500000 2000000).2 (by omega)

/-- C3 counterexample: a normal exit with return code 0 and stdout `null`
— JSON parsing succeeds and yields None — but the response's stdout field is
the raw text `"null"`, not the parsed value, because the code keeps the
parsed value only when it `is not None`. -/
theorem stdout_null_returned_raw :
    jsonLoads "null" = some Value.null ∧
    (runCode ⟨true, ChildResult.exited 0 "null" ""⟩ "print(None)" none).1
      = Except.ok (Value.dict [("ok", Value.bool true), ("returncode", Value.int 0),
          ("stdout", Value.str "null"), ("stderr", Value.str "")]) ∧
    Value.str "null" ≠ Value.null :=
  ⟨rfl, rfl, nofun⟩

/-- C3 (amended): on a normal child exit the response's ok field is true iff
the return code is 0, no error field is present, and the stdout field is the
JSON-parsed value of the captured stdout when parsing succeeds with a value
other than null; when parsing fails — or succeeds with null — the raw stdout
text is returned instead; a non-zero exit still carries the same stdout
field with ok=false. -/
theorem run_code_exit_spec (env : ExecEnv) (code : String) (t : Option Int)
    (rc : Int) (so se : String)
    (hc : env.child = ChildResult.exited rc so se)
    (hb : pyStripBlank code = false) :
    ∃ kvs : List (String × Value),
      (runCode env code t).1 = Except.ok (Value.dict kvs) ∧
      (dictGet kvs "ok" = Value.bool true ↔ rc = 0) ∧
      hasKey kvs "error" = false ∧
      (∀ v : Value, jsonLoads so = some v → v.isNull = false →
        dictGet kvs "stdout" = v) ∧
      ((jsonLoads so = none ∨ jsonLoads so = some Value.null) →
        dictGet kvs "stdout" = Value.str so) ∧
      dictGet kvs "returncode" = Value.int rc ∧
      dictGet kvs "stderr" = Value.str se := by
  refine ⟨[("ok", Value.bool (rc == 0)), ("returncode", Value.int rc),
    ("stdout", match jsonLoads so with
      | some v => if v.isNull then Value.str so else v
      | none => Value.str so), ("stderr", Value.str se)], ?_, ?_, rfl, ?_, ?_, rfl, rfl⟩
  · simp only [runCode, hb, hc]
    rfl
  · constructor
    · intro h
      have h2 : Value.bool (rc == 0) = Value.bool true := h
      exact beq_iff_eq.mp (Value.bool.inj h2)
    · intro h
      subst h
      rfl
  · intro v hv hn
    show (match jsonLoads so with
      | some v => if v.isNull then Value.str so else v
      | none => Value.str so) = v
    rw [hv]
    dsimp only
    rw [hn]
    rfl
  · intro hcase
    show (match jsonLoads so with
      | some v => if v.isNull then Value.str so else v
      | none => Value.str so) = Value.str so
    rcases hcase with h | h
    · rw [h]
    · rw [h]
      rfl

/-- C3 witness: parseable non-null stdout is returned parsed, with ok=true
for exit code 0. -/
theorem run_code_exit_witness :
    ∃ kvs : List (String × Value),
      (runCode ⟨true, ChildResult.exited 0 "[1, 2]" "warn"⟩ "print([1,2])" none).1
        = Except.ok (Value.dict kvs) ∧
      (dictGet kvs "ok" = Value.bool true ↔ (0 : Int) = 0) ∧
      hasKey kvs "error" = false ∧
      (∀ v : Value, jsonLoads "[1, 2]" = some v → v.isNull = false →
        dictGet kvs "stdout" = v) ∧
      ((jsonLoads "[1, 2]" = none ∨ jsonLoads "[1, 2]" = some Value.null) →
        dictGet kvs "stdout" = Value.str "[1, 2]") ∧
      dictGet kvs "returncode" = Value.int 0 ∧
      dictGet kvs "stderr" = Value.str "warn" :=
  run_code_exit_spec ⟨true, ChildResult.exited 0 "[1, 2]" "warn"⟩ "print([1,2])" none
    0 "[1, 2]" "warn" rfl rfl

/-- C4: on the primary invocation a timeout is reported as
`ok=false, error="timeout"` with the partial streams, but on the no-preexec
fallback invocation the same timeout reaches the generic exception handler
instead — the `except subprocess.TimeoutExpired` clause cannot catch an
exception raised inside the sibling `except TypeError` handler — so the
response carries `str(TimeoutExpired)`, which differs from `"timeout"`, and
drops the partial stdout/stderr fields. -/
theorem fallback_timeout_misreported :
    (runCode ⟨true, ChildResult.timedOut (some "out") (some "errs")⟩
        "while True: pass" none).1
      = Except.ok (Value.dict [("ok", Value.bool false), ("error", Value.str "timeout"),
          ("timeout_seconds", Value.int 5), ("stdout", Value.str "out"),
          ("stderr", Value.str "errs")]) ∧
    (runCode ⟨false, ChildResult.timedOut (some "out") (some "errs")⟩
        "while True: pass" none).1
      = Except.ok (Value.dict [("ok", Value.bool false),
          ("error", Value.str (timeoutExpiredMsg 5)),
          ("traceback", Value.str ("subprocess.TimeoutExpired: " ++ timeoutExpiredMsg 5))]) ∧
    timeoutExpiredMsg 5 ≠ "timeout" :=
  ⟨rfl, rfl, by decide⟩

/-- C8: every file actually handed to load-and-execute by `run_logic` lives
at the fixed logic directory joined with the basename of the chosen filename
— the basename contains no separator, so no relative traversal supplied via
the mapping value or the logic name survives into the executed path — and a
name absent from the mapping falls back to `<logic_name>.py` in that same
directory when it exists. -/
theorem executed_path_basename_confined :
    (∀ (env : Env) (l params payload prev meta : Value) (p : String) (pv : Value),
      EngineCall.execFile p pv ∈ (runLogic env l params payload prev meta).2 →
      ∃ fn : String, chooseFilename env l = some fn ∧
        p = safeJoinApiCalls fn ∧
        p = apiCallsDir ++ "/" ++ pyBasename fn ∧
        '/' ∉ (pyBasename fn).data) ∧
    (∀ (env : Env) (l : Value),
      mapLookup env.mapping l = none →
      env.fileExists (pyJoin apiCallsDir (pyStr l ++ ".py")) = true →
      chooseFilename env l = some (pyStr l ++ ".py")) := by
  constructor
  · intro env l params payload prev meta p pv h
    obtain ⟨fn, hfn, hp⟩ := runLogic_execFile_path env l params payload prev meta p pv h
    exact ⟨fn, hfn, hp, hp, pyBasename_no_slash fn⟩
  · intro env l h1 h2
    simp [chooseFilename, h1, h2]

/-- C8 witness: a mapping value laden with `../` segments is executed as its
basename inside the logic directory. -/
theorem executed_path_witness :
    ∃ fn : String, chooseFilename env1 (Value.str "logicA") = some fn ∧
      "/app/api_calls/x.py" = safeJoinApiCalls fn ∧
      "/app/api_calls/x.py" = apiCallsDir ++ "/" ++ pyBasename fn ∧
      '/' ∉ (pyBasename fn).data :=
  executed_path_basename_confined.1 env1 (Value.str "logicA") (Value.dict [])
    (Value.dict []) Value.null (Value.dict []) "/app/api_calls/x.py" Value.null
    (List.mem_singleton.mpr rfl)

theorem executePipeline_eq (d : Value → Value → Except String Value)
    (ns : List Value) (p tm : Value) :
    executePipeline d ns p tm =
      match runNodes d ns (normPayload p) [] with
      | (acc, some e) => ⟨acc, true, Except.error e, []⟩
      | (acc, none) =>
        if timeInterval (normTm tm) then
          match pyIntOpt (pyGetD (normTm tm) "interval_seconds" (Value.int 60)) with
          | some k => ⟨acc, false, Except.ok (successDict acc),
              [Enqueue.task ns (normPayload p) (normTm tm) k]⟩
          | none => ⟨acc, true, Except.error "invalid literal for int()", []⟩
        else ⟨acc, false, Except.ok (successDict acc), []⟩ := rfl

theorem executePipeline_ok_results (d : Value → Value → Except String Value)
    (ns : List Value) (p tm : Value) (v : Value)
    (h : (executePipeline d ns p tm).outcome = Except.ok v) :
    v = successDict (executePipeline d ns p tm).results ∧
    runNodes d ns (normPayload p) [] = ((executePipeline d ns p tm).results, none) ∧
    (executePipeline d ns p tm).failureRecorded = false := by
  rw [executePipeline_eq] at h ⊢
  rcases hrn : runNodes d ns (normPayload p) [] with ⟨acc, err⟩
  rw [hrn] at h
  cases err with
  | some e => simp at h
  | none =>
    cases hti : timeInterval (normTm tm) with
    | false =>
      rw [hti] at h
      exact ⟨(Except.ok.inj h).symm, rfl, rfl⟩
    | true =>
      cases hpi : pyIntOpt (pyGetD (normTm tm) "interval_seconds" (Value.int 60)) with
      | some k =>
        rw [hti, hpi] at h
        exact ⟨(Except.ok.inj h).symm, rfl, rfl⟩
      | none =>
        rw [hti, hpi] at h
        simp at h

/-- C9: `execute_pipeline` either returns the success-status value whose
results list has exactly one entry per node, in node order, each entry being
the record of that node's id, logic name and outcome — per-node Err outcome
values never interrupt this, so a total dispatch (plus a convertible
interval field when the trigger is recurring) always yields Ok — or, when an
exception escapes the loop, records run-level FAILURE state and re-raises
that exception. -/
theorem pipeline_results_or_failure :
    (∀ (d : Value → Value → Except String Value) (ns : List Value) (p tm : Value)
        (e : String),
      (executePipeline d ns p tm).outcome = Except.error e →
      (executePipeline d ns p tm).failureRecorded = true) ∧
    (∀ (d : Value → Value → Except String Value) (ns : List Value) (p tm : Value)
        (v : Value),
      (executePipeline d ns p tm).outcome = Except.ok v →
      (executePipeline d ns p tm).failureRecorded = false ∧
      v = successDict (executePipeline d ns p tm).results ∧
      ∃ rs : List Value, (executePipeline d ns p tm).results = rs ∧
        rs.length = ns.length ∧
        ∀ (i : Nat) (h1 : i < ns.length) (h2 : i < rs.length),
          rs.get ⟨i, h2⟩ =
            resultEntry (ns.get ⟨i, h1⟩) (pyGet (rs.get ⟨i, h2⟩) "result")) ∧
    (∀ (d : Value → Value → Except String Value) (ns : List Value) (p tm : Value),
      (∀ nd pr, ∃ r, d nd pr = Except.ok r) →
      (timeInterval (normTm tm) = true →
        (pyIntOpt (pyGetD (normTm tm) "interval_seconds" (Value.int 60))).isSome = true) →
      ∃ v, (executePipeline d ns p tm).outcome = Except.ok v) := by
  refine ⟨?_, ?_, ?_⟩
  · intro d ns p tm e h
    rw [executePipeline_eq] at h ⊢
    rcases hrn : runNodes d ns (normPayload p) [] with ⟨acc, err⟩
    rw [hrn] at h
    cases err with
    | some e2 => rfl
    | none =>
      cases hti : timeInterval (normTm tm) with
      | false =>
        rw [hti] at h
        simp at h
      | true =>
        cases hpi : pyIntOpt (pyGetD (normTm tm) "interval_seconds" (Value.int 60)) with
        | some k =>
          rw [hti, hpi] at h
          simp at h
        | none => rfl
  · intro d ns p tm v h
    obtain ⟨hv, hrn, hfr⟩ := executePipeline_ok_results d ns p tm v h
    obtain ⟨tail, ht1, ht2, ht3⟩ := runNodes_shape d ns (normPayload p) [] _ hrn
    refine ⟨hfr, hv, tail, by simpa using ht1, ht2, ht3⟩
  · intro d ns p tm htot hres
    rw [executePipeline_eq]
    rcases hrn : runNodes d ns (normPayload p) [] with ⟨acc, err⟩
    have h2 := runNodes_total_none d htot ns (normPayload p) []
    rw [hrn] at h2
    simp only at h2
    subst h2
    cases hti : timeInterval (normTm tm) with
    | false => exact ⟨successDict acc, rfl⟩
    | true =>
      have hs := hres hti
      cases hpi : pyIntOpt (pyGetD (normTm tm) "interval_seconds" (Value.int 60)) with
      | some k => exact ⟨successDict acc, rfl⟩
      | none =>
        rw [hpi] at hs
        simp at hs

/-- C9 witness: a concrete single-node run returns success with its one
result entry and no FAILURE state; a total dispatch under a recurring
trigger still yields Ok. -/
theorem pipeline_results_witness :
    ((executePipeline dispatchNull
        [Value.dict [("id", Value.str "a"), ("logic", Value.str "L")]]
        Value.null Value.null).failureRecorded = false ∧
      successDict [resultEntry (Value.dict [("id", Value.str "a"), ("logic", Value.str "L")])
          Value.null]
        = successDict (executePipeline dispatchNull
            [Value.dict [("id", Value.str "a"), ("logic", Value.str "L")]]
            Value.null Value.null).results ∧
      ∃ rs : List Value,
        (executePipeline dispatchNull
          [Value.dict [("id", Value.str "a"), ("logic", Value.str "L")]]
          Value.null Value.null).results = rs ∧
        rs.length = [Value.dict [("id", Value.str "a"), ("logic", Value.str "L")]].length ∧
        ∀ (i : Nat) (h1 : i < [Value.dict [("id", Value.str "a"), ("logic", Value.str "L")]].length)
            (h2 : i < rs.length),
          rs.get ⟨i, h2⟩ =
            resultEntry ([Value.dict [("id", Value.str "a"), ("logic", Value.str "L")]].get ⟨i, h1⟩)
              (pyGet (rs.get ⟨i, h2⟩) "result")) ∧
    (∃ v, (executePipeline dispatchNull [] Value.null tmInterval7).outcome = Except.ok v) :=
  ⟨pipeline_results_or_failure.2.1 dispatchNull
     [Value.dict [("id", Value.str "a"), ("logic", Value.str "L")]] Value.null Value.null
     (successDict [resultEntry (Value.dict [("id", Value.str "a"), ("logic", Value.str "L")])
        Value.null]) rfl,
   pipeline_results_or_failure.2.2 dispatchNull [] Value.null tmInterval7
     (fun _ _ => ⟨Value.null, rfl⟩) (fun _ => rfl)⟩

theorem executePipeline_interval_enqueues (d : Value → Value → Except String Value)
    (htot : ∀ nd pr, ∃ r, d nd pr = Except.ok r)
    (ns : List Value) (p tm : Value) (k : Int)
    (hT : (pyGet tm "trigger_type").isStrEq "time" = true)
    (hM : (pyGet tm "mode").isStrEq "interval" = true)
    (hK : pyGetD tm "interval_seconds" (Value.int 60) = Value.int k) :
    (executePipeline d ns p tm).enqueues = [Enqueue.task ns (normPayload p) tm k] := by
  have hTm : normTm tm = tm := normTm_of_get tm "trigger_type" "time" hT
  rw [executePipeline_eq]
  rcases hrn : runNodes d ns (normPayload p) [] with ⟨acc, err⟩
  have h2 := runNodes_total_none d htot ns (normPayload p) []
  rw [hrn] at h2
  simp only at h2
  subst h2
  have hti : timeInterval (normTm tm) = true := by
    rw [hTm]
    simp [timeInterval, hT, hM]
  have hpi : pyIntOpt (pyGetD (normTm tm) "interval_seconds" (Value.int 60)) = some k := by
    rw [hTm, hK]
    rfl
  rw [hti, hpi, hTm]
  rfl

theorem chainCount_interval (d : Value → Value → Except String Value)
    (htot : ∀ nd pr, ∃ r, d nd pr = Except.ok r)
    (tm : Value) (k : Int)
    (hT : (pyGet tm "trigger_type").isStrEq "time" = true)
    (hM : (pyGet tm "mode").isStrEq "interval" = true)
    (hK : pyGetD tm "interval_seconds" (Value.int 60) = Value.int k) :
    ∀ (n : Nat) (ns : List Value) (p : Value) (c : Int),
      chainCount d (Enqueue.task ns p tm c) n = n + 1 := by
  intro n
  induction n with
  | zero => intro ns p c; rfl
  | succ m ih =>
    intro ns p c
    have he := executePipeline_interval_enqueues d htot ns p tm k hT hM hK
    simp only [chainCount, he]
    rw [ih ns (normPayload p) k]
    omega

/-- C7: a run whose trigger metadata is a recurring interval trigger, on
completing all nodes without an exception, enqueues exactly one further
invocation of itself with the same node list and trigger metadata and
countdown the interval, so the chain started by the scheduler's initial
enqueue has produced exactly N+1 enqueues after N completed runs; runs whose
metadata is not a recurring interval trigger (webhook, one-shot), and runs
the loop aborts with an exception, enqueue nothing. -/
theorem interval_self_reenqueue :
    (∀ (d : Value → Value → Except String Value) (ns : List Value) (p tm : Value)
        (k c : Int) (n : Nat),
      (∀ nd pr, ∃ r, d nd pr = Except.ok r) →
      (pyGet tm "trigger_type").isStrEq "time" = true →
      (pyGet tm "mode").isStrEq "interval" = true →
      pyGetD tm "interval_seconds" (Value.int 60) = Value.int k →
      (executePipeline d ns p tm).enqueues = [Enqueue.task ns (normPayload p) tm k] ∧
        chainCount d (Enqueue.task ns p tm c) n = n + 1) ∧
    (∀ (d : Value → Value → Except String Value) (ns : List Value) (p tm : Value),
      timeInterval (normTm tm) = false →
      (executePipeline d ns p tm).enqueues = []) ∧
    (∀ (d : Value → Value → Except String Value) (ns : List Value) (p tm : Value)
        (e : String),
      (executePipeline d ns p tm).outcome = Except.error e →
      (executePipeline d ns p tm).enqueues = []) := by
  refine ⟨?_, ?_, ?_⟩
  · intro d ns p tm k c n htot hT hM hK
    exact ⟨executePipeline_interval_enqueues d htot ns p tm k hT hM hK,
      chainCount_interval d htot tm k hT hM hK n ns p c⟩
  · intro d ns p tm hti
    rw [executePipeline_eq]
    rcases hrn : runNodes d ns (normPayload p) [] with ⟨acc, err⟩
    cases err with
    | some e => rfl
    | none =>
      rw [hti]
      rfl
  · intro d ns p tm e h
    rw [executePipeline_eq] at h ⊢
    rcases hrn : runNodes d ns (normPayload p) [] with ⟨acc, err⟩
    rw [hrn] at h
    cases err with
    | some e2 => rfl
    | none =>
      cases hti : timeInterval (normTm tm) with
      | false =>
        rw [hti] at h
        simp at h
      | true =>
        cases hpi : pyIntOpt (pyGetD (normTm tm) "interval_seconds" (Value.int 60)) with
        | some k =>
          rw [hti, hpi] at h
          simp at h
        | none => rfl

/-- C7 witness: a concrete empty-pipeline interval run re-enqueues itself
once, and after 2 completed runs 3 enqueues have occurred. -/
theorem interval_self_reenqueue_witness :
    (executePipeline dispatchNull [] Value.null tmInterval7).enqueues
      = [Enqueue.task [] (normPayload Value.null) tmInterval7 7] ∧
    chainCount dispatchNull (Enqueue.task [] Value.null tmInterval7 7) 2 = 3 :=
  interval_self_reenqueue.1 dispatchNull [] Value.null tmInterval7 7 7 2
    (fun _ _ => ⟨Value.null, rfl⟩) rfl rfl rfl
